import Mathlib

/-
Verification of the note-taking backend (Flask + SQLAlchemy sources:
src/routes/note.py, src/routes/auth.py, src/models/note.py).

Strings are modelled as lists of characters.  Timestamps are natural
numbers; each request is handed a single current time `now`, modelling
the utcnow() readings taken while the request is processed.  The
SQLAlchemy query operators used by the routes are modelled by their
documented semantics: `ilike` is case-insensitive SQL LIKE pattern
matching (with the wildcards percent and underscore active, since the
routes interpolate user input into the pattern without escaping), and
an UPDATE statement is only emitted - hence `onupdate` only fires -
when at least one column value actually changed.
-/

namespace NoteApp

/-- Python strings, modelled as lists of characters. -/
abbrev Str := List Char

/-- Whitespace characters removed by the Python str.strip method. -/
def pyWhitespace (c : Char) : Bool :=
  c == ' ' || c == '\t' || c == '\n' || c == '\r' || c == '\x0b' || c == '\x0c'

/-- Python str.strip: remove leading and trailing whitespace. -/
def strip (s : Str) : Str :=
  ((s.dropWhile pyWhitespace).reverse.dropWhile pyWhitespace).reverse

/-- Python str.lower (restricted to the Char.toLower mapping), used to
model case-insensitive comparison. -/
def strLower (s : Str) : Str := s.map Char.toLower

/-- Python ",".join. -/
def joinComma : List Str → Str
  | [] => []
  | [t] => t
  | t :: ts => t ++ ',' :: joinComma ts

/-- Python str.split on a comma: always returns at least one piece, and
the empty string splits to one empty piece. -/
def splitComma : Str → List Str
  | [] => [[]]
  | c :: rest =>
    if c = ',' then [] :: splitComma rest
    else
      match splitComma rest with
      | [] => [[c]]
      | g :: gs => (c :: g) :: gs

/-- SQL LIKE pattern matching against a whole string, case-insensitive
(modelling the SQLAlchemy ilike operator).  The percent wildcard
matches any sequence of characters, the underscore wildcard matches
exactly one character, and every other pattern character matches one
string character up to lowercasing. -/
def likeMatch : Str → Str → Bool
  | [], s => s.isEmpty
  | c :: p, s =>
    if c = '%' then
      s.tails.any (fun u => likeMatch p u)
    else
      match s with
      | [] => false
      | c2 :: s2 =>
        if c = '_' then likeMatch p s2
        else c.toLower == c2.toLower && likeMatch p s2

/-- The routes test a stored field against the pattern percent-t-percent,
built by Python f-string interpolation without escaping. -/
def ilikeContains (field t : Str) : Bool :=
  likeMatch ('%' :: (t ++ ['%'])) field

/-- A string free of the SQL LIKE wildcard characters. -/
def noWildcard (t : Str) : Bool :=
  t.all (fun c => c != '%' && c != '_')

/-- Case-insensitive literal substring containment, the relation the
specification describes for search and tag filtering. -/
def containsCI (hay needle : Str) : Bool :=
  decide (strLower needle <:+: strLower hay)

/-- The tags value of a request body: absent, JSON null, a single
string, or a list whose elements are strings or nulls. -/
inductive TagsInput where
  | absent
  | nullv
  | str (s : Str)
  | list (l : List (Option Str))
deriving DecidableEq

/-- Tag normalization shared by create_note and update_note:
a list is joined with commas after dropping nulls and stripping each
element; a single string is stripped; in create_note an absent value
defaults to the empty string, and a JSON null goes through Python
str(None). -/
def normalizeTags : TagsInput → Str
  | .absent => strip []
  | .nullv => strip ['N', 'o', 'n', 'e']
  | .str s => strip s
  | .list l => joinComma ((l.filterMap id).map strip)

/-- The Note model (src/models/note.py): id, title, content, tags as a
single comma-separated string, and the two timestamps. -/
structure Note where
  id : Nat
  title : Str
  content : Str
  tags : Str
  created_at : Nat
  updated_at : Nat
deriving DecidableEq

/-- The notes table plus the autoincrement id counter. -/
structure Store where
  notes : List Note
  nextId : Nat
deriving DecidableEq

/-- Errors surfaced by the note routes. -/
inductive NoteErr where
  | validationError
  | notFoundError
deriving DecidableEq

/-- A create request body: the route only tests key presence for title
and content, and reads tags with a default of the empty string. -/
structure CreateReq where
  title : Option Str
  content : Option Str
  tags : TagsInput

/-- POST /notes (create_note in src/routes/note.py): reject with 400
when the title or content key is missing, otherwise normalize tags and
insert a new note whose two timestamps are both the current time. -/
def create_note (now : Nat) (req : CreateReq) (s : Store) :
    Except NoteErr (Store × Note) :=
  match req.title, req.content with
  | some t, some c =>
    let tags := normalizeTags req.tags
    let n : Note :=
      { id := s.nextId, title := t, content := c, tags := tags,
        created_at := now, updated_at := now }
    .ok ({ notes := s.notes ++ [n], nextId := s.nextId + 1 }, n)
  | _, _ => .error .validationError

/-- An update request body; `some req` stands for a non-empty JSON
object, `none` (below) for an absent or empty body. -/
structure UpdateReq where
  title : Option Str
  content : Option Str
  tags : TagsInput

/-- The tags column after an update: untouched when the tags key is
absent from the body, otherwise re-assigned the normalized value. -/
def newTagsOf (ti : TagsInput) (old : Str) : Str :=
  match ti with
  | .absent => old
  | t => normalizeTags t

/-- Whether the update gives any column a value different from the
stored one.  The route re-assigns every column (absent fields are
assigned their own current value), and the ORM only emits an UPDATE
statement when some assigned value differs, so this condition governs
whether the onupdate refresh of updated_at fires. -/
def updateChanged (req : UpdateReq) (n : Note) : Prop :=
  req.title.getD n.title ≠ n.title ∨
    req.content.getD n.content ≠ n.content ∨
    newTagsOf req.tags n.tags ≠ n.tags

instance (req : UpdateReq) (n : Note) : Decidable (updateChanged req n) :=
  inferInstanceAs (Decidable (_ ∨ _ ∨ _))

/-- The new row produced by update_note: present fields overwrite,
absent fields are re-assigned their own value.  updated_at is set by
the onupdate hook, which fires only when the UPDATE statement is
actually emitted, i.e. when at least one assigned value differs from
the stored one. -/
def applyUpdate (now : Nat) (req : UpdateReq) (n : Note) : Note :=
  { n with
    title := req.title.getD n.title,
    content := req.content.getD n.content,
    tags := newTagsOf req.tags n.tags,
    updated_at := if updateChanged req n then now else n.updated_at }

/-- PUT /notes/id (update_note in src/routes/note.py): 404 when the id
is unknown, 400 when the body is absent or empty, otherwise apply the
partial update. -/
def update_note (now : Nat) (id : Nat) (req? : Option UpdateReq) (s : Store) :
    Except NoteErr (Store × Note) :=
  match s.notes.find? (fun m => m.id == id) with
  | none => .error .notFoundError
  | some n =>
    match req? with
    | none => .error .validationError
    | some req =>
      let n2 := applyUpdate now req n
      .ok ({ s with notes := s.notes.map (fun m => if m.id == id then n2 else m) }, n2)

/-- DELETE /notes/id (delete_note in src/routes/note.py). -/
def delete_note (id : Nat) (s : Store) : Except NoteErr Store :=
  match s.notes.find? (fun m => m.id == id) with
  | none => .error .notFoundError
  | some _ => .ok { s with notes := s.notes.filter (fun m => m.id != id) }

/-- The descending updated_at ordering used by order_by in the
routes. -/
def updatedDescRel (a b : Note) : Prop :=
  b.updated_at ≤ a.updated_at

instance : DecidableRel updatedDescRel :=
  fun a b => inferInstanceAs (Decidable (b.updated_at ≤ a.updated_at))

instance : IsTotal Note updatedDescRel :=
  ⟨fun a b => Nat.le_total b.updated_at a.updated_at⟩

instance : IsTrans Note updatedDescRel :=
  ⟨fun _ _ _ h1 h2 => Nat.le_trans h2 h1⟩

/-- order_by(Note.updated_at.desc()): the rows sorted by updated_at
descending (ties in an unspecified but fixed order). -/
def orderByUpdatedDesc (ns : List Note) : List Note :=
  List.insertionSort updatedDescRel ns

/-- GET /notes/search (search_notes in src/routes/note.py): strip the
query, return the empty list when it is blank, otherwise keep the notes
whose title or content matches the ilike pattern, ordered by updated_at
descending. -/
def search_notes (q? : Option Str) (s : Store) : List Note :=
  if (strip (q?.getD [])).isEmpty then []
  else
    orderByUpdatedDesc
      (s.notes.filter (fun n =>
        ilikeContains n.title (strip (q?.getD [])) ||
          ilikeContains n.content (strip (q?.getD []))))

/-- The requested tag values collected by filter_notes_by_tags: the
repeated tag parameter (keeping the entries that are non-empty and
strip to something non-empty) followed by the comma-split pieces of the
combined tags parameter when that parameter is present and non-empty. -/
def collectRequested (tagParams : List Str) (tagsParam : Option Str) : List Str :=
  (tagParams.filter (fun t => !t.isEmpty && !(strip t).isEmpty)).map strip ++
    (match tagsParam with
     | none => []
     | some s =>
       if s.isEmpty then []
       else ((splitComma s).filter (fun t => !(strip t).isEmpty)).map strip)

/-- The dedup loop of filter_notes_by_tags: keep a tag when it is
non-empty and its lowercasing has not been seen, recording lowercased
forms. -/
def dedupeCIAux (seen : List Str) : List Str → List Str
  | [] => []
  | t :: rest =>
    if !t.isEmpty && !(seen.contains (strLower t)) then
      t :: dedupeCIAux (strLower t :: seen) rest
    else
      dedupeCIAux seen rest

/-- Case-insensitive dedup keeping the casing of the first occurrence. -/
def dedupeCI (l : List Str) : List Str := dedupeCIAux [] l

/-- GET /notes/tags (filter_notes_by_tags in src/routes/note.py):
collect and dedupe the requested tags, return the empty list when none
remain, otherwise keep the notes whose stored tag string matches the
ilike pattern of any requested tag, ordered by updated_at descending. -/
def filter_notes_by_tags (tagParams : List Str) (tagsParam : Option Str) (s : Store) :
    List Note :=
  if (dedupeCI (collectRequested tagParams tagsParam)).isEmpty then []
  else
    orderByUpdatedDesc
      (s.notes.filter (fun n =>
        (dedupeCI (collectRequested tagParams tagsParam)).any
          (fun t => ilikeContains n.tags t)))

/-- Stated from the specification wording, for comparison with the
code: a note matches a requested tag list when its stored tag string
contains at least one requested tag as a case-insensitive substring. -/
def specTagMatch (tags : List Str) (n : Note) : Bool :=
  tags.any (fun t => containsCI n.tags t)

/-- Stated from the specification wording, for comparison with the
code: a note matches a search query when its title or content contains
the query as a case-insensitive substring. -/
def specSearchMatch (q : Str) (n : Note) : Bool :=
  containsCI n.title q || containsCI n.content q

/-- Stated from the specification wording, for comparison with the
code: concatenate the repeated parameter values with the comma-split
values of the combined parameter, trim each, drop empty entries, and
dedupe case-insensitively. -/
def specRequestedTags (tagParams : List Str) (tagsParam : Option Str) : List Str :=
  dedupeCI
    (((tagParams ++
        (match tagsParam with
         | none => []
         | some s => splitComma s)).map strip).filter (fun t => !t.isEmpty))

/-- A user row/entity as the login route probes it at runtime
(src/routes/auth.py): a username, an optional email, and three optional
verification capabilities, each `none` when the corresponding method or
attribute is missing on the model. -/
structure User where
  username : Str
  email : Option Str
  check_password : Option (Str → Bool)
  password_hash : Option Str
  password : Option Str

/-- Observable outcome of the login route: 200 with a user summary,
400 for missing input, 401 for bad credentials, 500 when no password
verifier is available. -/
inductive LoginResult where
  | success (username : Str)
  | validationError
  | authError
  | configError
deriving DecidableEq

/-- HTTP status of each login outcome. -/
def loginStatus : LoginResult → Nat
  | .success _ => 200
  | .validationError => 400
  | .authError => 401
  | .configError => 500

/-- The error field of the JSON body returned with each login outcome,
as written in src/routes/auth.py. -/
def loginErrorBody : LoginResult → Option Str
  | .success _ => none
  | .validationError => some ("username and password are required".data)
  | .authError => some ("Invalid credentials".data)
  | .configError => some ("No password verifier available for User model".data)

/-- The user lookup loop of the login route: first by the username
column, then, when nothing matched, by the email column. -/
def findUser (users : List User) (username : Str) : Option User :=
  match users.find? (fun u => u.username == username) with
  | some u => some u
  | none => users.find? (fun u => u.email == some username)

/-- The verification chain of the login route, parameterized by the
werkzeug check_password_hash function: prefer the check_password
method, else the password_hash attribute, else raw comparison with the
password attribute; with none of the three, error (mapped to 500). -/
def verifyPassword (verifyHash : Str → Str → Bool) (u : User) (pw : Str) :
    Except Unit Bool :=
  match u.check_password with
  | some f => .ok (f pw)
  | none =>
    match u.password_hash with
    | some h => .ok (verifyHash h pw)
    | none =>
      match u.password with
      | some p => .ok (p == pw)
      | none => .error ()

/-- POST /login (login in src/routes/auth.py).  Absent or empty
username or password give 400; an unmatched lookup gives 401; a failed
verification gives the same 401; a missing verifier gives 500. -/
def login (verifyHash : Str → Str → Bool) (users : List User)
    (username? password? : Option Str) : LoginResult :=
  let username := username?.getD []
  let password := password?.getD []
  if username.isEmpty || password.isEmpty then .validationError
  else
    match findUser users username with
    | none => .authError
    | some u =>
      match verifyPassword verifyHash u password with
      | .error _ => .configError
      | .ok valid => if valid then .success u.username else .authError

/-- Observable outcome of the register route. -/
inductive RegisterResult where
  | created (username : Str)
  | validationError
  | duplicateError
deriving DecidableEq

/-- HTTP status of each register outcome. -/
def registerStatus : RegisterResult → Nat
  | .created _ => 201
  | .validationError => 400
  | .duplicateError => 400

/-- The uniqueness lookup of the register route.  When the User model
has an email column the filter is username-or-email (and comparing the
email column with an absent request email is SQL IS NULL, matching rows
with a null email); when the email column is missing the filter raises
and the except branch falls back to a username-only lookup. -/
def duplicateCheck (hasEmailAttr : Bool) (users : List User)
    (username : Str) (email? : Option Str) : Option User :=
  if hasEmailAttr then
    users.find? (fun u => u.username == username || u.email == email?)
  else
    users.find? (fun u => u.username == username)

/-- POST /register (register in src/routes/auth.py): 400 when username
or password is absent or empty, 400 when the uniqueness lookup finds an
existing user (nothing persisted), otherwise persist a new user whose
password_hash holds the hash of the submitted password. -/
def register (hashFn : Str → Str) (hasEmailAttr : Bool) (users : List User)
    (username? email? password? : Option Str) : RegisterResult × List User :=
  let username := username?.getD []
  let password := password?.getD []
  if username.isEmpty || password.isEmpty then (.validationError, users)
  else
    match duplicateCheck hasEmailAttr users username email? with
    | some _ => (.duplicateError, users)
    | none =>
      let u : User :=
        { username := username, email := email?, check_password := none,
          password_hash := some (hashFn password), password := none }
      (.created username, users ++ [u])

/-- The timestamp invariant of the data model. -/
def StoreInv (s : Store) : Prop :=
  ∀ n ∈ s.notes, n.created_at ≤ n.updated_at

/-- Sample data used by concrete witnesses and counterexamples. -/
def sampleSmartNote : Note :=
  { id := 1, title := "smart".data, content := "misc".data,
    tags := "smart,outdoors".data, created_at := 0, updated_at := 0 }

def sampleStore : Store :=
  { notes := [sampleSmartNote], nextId := 2 }

def sampleNoteA : Note :=
  { id := 1, title := "A".data, content := "B".data, tags := [],
    created_at := 0, updated_at := 0 }

def sampleStoreA : Store :=
  { notes := [sampleNoteA], nextId := 2 }

def emptyTitleNote : Note :=
  { id := 0, title := [], content := "c".data, tags := [],
    created_at := 0, updated_at := 0 }

def tagListReq : CreateReq :=
  { title := some "t".data, content := some "c".data,
    tags := .list [some "a".data, some " b ".data, none, some "a".data] }

def tagListNote : Note :=
  { id := 0, title := "t".data, content := "c".data, tags := "a,b,a".data,
    created_at := 0, updated_at := 0 }

def constFalseHash : Str → Str → Bool := fun _ _ => false

def noVerifierUser : User :=
  { username := "alice".data, email := none, check_password := none,
    password_hash := none, password := none }

def plainPasswordUser : User :=
  { username := "alice".data, email := some "a@x.com".data, check_password := none,
    password_hash := none, password := some "secret".data }

def idHashFn : Str → Str := fun p => 'h' :: p

def updateReqX : UpdateReq :=
  { title := some "X".data, content := none, tags := .absent }

/-! Helper lemmas relating LIKE pattern matching to case-insensitive
substring containment. -/

theorem strLower_append (a b : Str) :
    strLower (a ++ b) = strLower a ++ strLower b :=
  List.map_append _ a b

theorem anyCongrMem {α : Type} {f g : α → Bool} :
    ∀ l : List α, (∀ x ∈ l, f x = g x) → l.any f = l.any g
  | [], _ => rfl
  | x :: xs, h => by
    simp only [List.any_cons]
    rw [h x (List.mem_cons_self x xs),
      anyCongrMem xs (fun y hy => h y (List.mem_cons_of_mem x hy))]

theorem noWildcard_cons {c : Char} {t : Str} (h : noWildcard (c :: t) = true) :
    c ≠ '%' ∧ c ≠ '_' ∧ noWildcard t = true := by
  simp only [noWildcard, List.all_cons, Bool.and_eq_true, bne_iff_ne, ne_eq] at h ⊢
  exact ⟨h.1.1, h.1.2, h.2⟩

theorem likeMatch_percent_iff (p s : Str) :
    likeMatch ('%' :: p) s = true ↔
      ∃ pre post, s = pre ++ post ∧ likeMatch p post = true := by
  have hunfold : likeMatch ('%' :: p) s = s.tails.any (fun u => likeMatch p u) := by
    simp [likeMatch]
  rw [hunfold, List.any_eq_true]
  constructor
  · rintro ⟨u, hu, hm⟩
    rcases (List.mem_tails u s).mp hu with ⟨pre, rfl⟩
    exact ⟨pre, u, rfl, hm⟩
  · rintro ⟨pre, post, rfl, hm⟩
    exact ⟨post, (List.mem_tails post (pre ++ post)).mpr ⟨pre, rfl⟩, hm⟩

theorem likeMatch_plain_iff (t : Str) :
    noWildcard t = true → ∀ s : Str,
      (likeMatch (t ++ ['%']) s = true ↔ ∃ r, strLower s = strLower t ++ r) := by
  induction t with
  | nil =>
    intro _ s
    constructor
    · intro _
      exact ⟨strLower s, by simp [strLower]⟩
    · intro _
      show likeMatch ('%' :: ([] : Str)) s = true
      rw [likeMatch_percent_iff]
      exact ⟨s, [], by simp, rfl⟩
  | cons c t ih =>
    intro h s
    obtain ⟨hcp, hcu, ht⟩ := noWildcard_cons h
    have iht := ih ht
    cases s with
    | nil =>
      constructor
      · intro hl
        simp [likeMatch, hcp] at hl
      · rintro ⟨r, hr⟩
        simp [strLower] at hr
    | cons c2 s2 =>
      have hstep : likeMatch ((c :: t) ++ ['%']) (c2 :: s2) =
          ((c.toLower == c2.toLower) && likeMatch (t ++ ['%']) s2) := by
        simp [likeMatch, hcp, hcu]
      rw [hstep, Bool.and_eq_true, beq_iff_eq]
      constructor
      · rintro ⟨hcc, hm⟩
        obtain ⟨r, hr⟩ := (iht s2).mp hm
        refine ⟨r, ?_⟩
        simp only [strLower, List.map_cons, List.cons_append] at hr ⊢
        rw [hr, hcc]
      · rintro ⟨r, hr⟩
        simp only [strLower, List.map_cons, List.cons_append, List.cons.injEq] at hr
        obtain ⟨hhead, htail⟩ := hr
        exact ⟨hhead.symm, (iht s2).mpr ⟨r, htail⟩⟩

theorem ilike_eq_containsCI (s t : Str) (h : noWildcard t = true) :
    ilikeContains s t = containsCI s t := by
  rw [Bool.eq_iff_iff]
  have hcont : containsCI s t = true ↔ strLower t <:+: strLower s := by
    simp [containsCI]
  rw [hcont]
  show likeMatch ('%' :: (t ++ ['%'])) s = true ↔ strLower t <:+: strLower s
  rw [likeMatch_percent_iff]
  constructor
  · rintro ⟨pre, post, rfl, hm⟩
    obtain ⟨r, hr⟩ := (likeMatch_plain_iff t h post).mp hm
    refine ⟨strLower pre, r, ?_⟩
    rw [strLower_append, List.append_assoc, ← hr]
  · rintro ⟨a, b, hab⟩
    refine ⟨s.take a.length, s.drop a.length, (List.take_append_drop _ s).symm,
      (likeMatch_plain_iff t h _).mpr ⟨b, ?_⟩⟩
    show strLower (s.drop a.length) = strLower t ++ b
    simp only [strLower] at hab ⊢
    rw [List.map_drop, ← hab, List.append_assoc, List.drop_left]

theorem tagAnyMatch_eq (tags : List Str) (hw : ∀ t ∈ tags, noWildcard t = true)
    (n : Note) :
    (tags.any (fun t => ilikeContains n.tags t)) = specTagMatch tags n :=
  anyCongrMem tags (fun t ht => ilike_eq_containsCI n.tags t (hw t ht))

/-- C1 counterexample: the requested tag s_art contains the LIKE
single-character wildcard, so the filter returns the note tagged
smart,outdoors even though s_art is not a case-insensitive substring of
that stored tag string, contradicting the claim as stated. -/
theorem c1_counterexample :
    filter_notes_by_tags ["s_art".data] none sampleStore = [sampleSmartNote] ∧
    specTagMatch (dedupeCI (collectRequested ["s_art".data] none)) sampleSmartNote
      = false :=
  ⟨by decide, by decide⟩

/-- C1 (amended): when no requested tag contains a LIKE wildcard
character, the tag filter returns exactly the notes whose stored tag
string contains at least one requested tag as a case-insensitive
substring, ordered by updated_at descending. -/
theorem c1_tag_filter_substring (tagParams : List Str) (tagsParam : Option Str)
    (s : Store)
    (hw : ∀ t ∈ dedupeCI (collectRequested tagParams tagsParam), noWildcard t = true) :
    (filter_notes_by_tags tagParams tagsParam s).Perm
      (s.notes.filter (specTagMatch (dedupeCI (collectRequested tagParams tagsParam)))) ∧
    List.Sorted updatedDescRel (filter_notes_by_tags tagParams tagsParam s) := by
  have hfilter :
      s.notes.filter (fun n =>
        (dedupeCI (collectRequested tagParams tagsParam)).any
          (fun t => ilikeContains n.tags t)) =
      s.notes.filter (specTagMatch (dedupeCI (collectRequested tagParams tagsParam))) :=
    List.filter_congr (fun n _ => tagAnyMatch_eq _ hw n)
  unfold filter_notes_by_tags
  by_cases he : (dedupeCI (collectRequested tagParams tagsParam)).isEmpty = true
  · rw [if_pos he]
    have hnil : dedupeCI (collectRequested tagParams tagsParam) = [] :=
      List.isEmpty_iff.mp he
    have : s.notes.filter (specTagMatch (dedupeCI (collectRequested tagParams tagsParam)))
        = [] := by
      rw [hnil]
      exact List.filter_eq_nil_iff.mpr (fun n _ => by simp [specTagMatch])
    rw [this]
    exact ⟨List.Perm.refl [], List.sorted_nil⟩
  · rw [if_neg he, hfilter]
    exact ⟨List.perm_insertionSort _ _, List.sorted_insertionSort _ _⟩

/-- C1 witness: a wildcard-free request on the sample store. -/
theorem c1_witness :
    (filter_notes_by_tags ["art".data] none sampleStore).Perm
      (sampleStore.notes.filter
        (specTagMatch (dedupeCI (collectRequested ["art".data] none)))) ∧
    List.Sorted updatedDescRel (filter_notes_by_tags ["art".data] none sampleStore) :=
  c1_tag_filter_substring ["art".data] none sampleStore (by decide)

/-- C4 counterexample: the query s_art contains the LIKE
single-character wildcard, so search returns the note titled smart even
though s_art is not a case-insensitive substring of its title or
content, contradicting the claim as stated. -/
theorem c4_counterexample :
    search_notes (some "s_art".data) sampleStore = [sampleSmartNote] ∧
    specSearchMatch (strip "s_art".data) sampleSmartNote = false :=
  ⟨by decide, by decide⟩

/-- C4 (amended): a blank or whitespace-only query returns the empty
list regardless of the store; a non-blank query free of LIKE wildcard
characters returns exactly the notes whose title or content contains
the trimmed query as a case-insensitive substring, ordered by
updated_at descending. -/
theorem c4_search_blank_and_substring (q? : Option Str) (s : Store) :
    ((strip (q?.getD [])).isEmpty = true → search_notes q? s = []) ∧
    ((strip (q?.getD [])).isEmpty = false →
      noWildcard (strip (q?.getD [])) = true →
      (search_notes q? s).Perm
        (s.notes.filter (specSearchMatch (strip (q?.getD [])))) ∧
      List.Sorted updatedDescRel (search_notes q? s)) := by
  constructor
  · intro hb
    unfold search_notes
    rw [if_pos hb]
  · intro hnb hw
    have hfilter :
        s.notes.filter (fun n =>
          ilikeContains n.title (strip (q?.getD [])) ||
            ilikeContains n.content (strip (q?.getD []))) =
        s.notes.filter (specSearchMatch (strip (q?.getD []))) := by
      apply List.filter_congr
      intro n _
      unfold specSearchMatch
      rw [ilike_eq_containsCI _ _ hw, ilike_eq_containsCI _ _ hw]
    unfold search_notes
    rw [if_neg (by simp [hnb]), hfilter]
    exact ⟨List.perm_insertionSort _ _, List.sorted_insertionSort _ _⟩

/-- C4 witness: a blank query and a wildcard-free query on the sample
store. -/
theorem c4_witness :
    search_notes (some "   ".data) sampleStore = [] ∧
    (search_notes (some " mis ".data) sampleStore).Perm
      (sampleStore.notes.filter (specSearchMatch (strip " mis ".data))) ∧
    List.Sorted updatedDescRel (search_notes (some " mis ".data) sampleStore) := by
  refine ⟨(c4_search_blank_and_substring (some "   ".data) sampleStore).1 (by decide), ?_, ?_⟩
  · exact ((c4_search_blank_and_substring (some " mis ".data) sampleStore).2
      (by decide) (by decide)).1
  · exact ((c4_search_blank_and_substring (some " mis ".data) sampleStore).2
      (by decide) (by decide)).2

theorem filterMapStripComm (l : List (Option Str)) :
    (l.filterMap id).map strip = (l.map (fun o => o.map strip)).filterMap id := by
  induction l with
  | nil => rfl
  | cons o rest ih => cases o <;> simp [ih]

/-- C2: the stored tag string produced by create: a sequence is
element-wise trimmed with nulls dropped and joined by commas without
dedup, a single string is trimmed, and an absent tags key stores the
empty string. -/
theorem c2_create_tag_normalization (now : Nat) (s : Store) (title content : Str)
    (input : TagsInput) (st : Store) (n : Note)
    (h : create_note now { title := some title, content := some content, tags := input } s
      = .ok (st, n)) :
    (∀ l, input = .list l →
      n.tags = joinComma ((l.map (fun o => o.map strip)).filterMap id)) ∧
    (∀ ts, input = .str ts → n.tags = strip ts) ∧
    (input = .absent → n.tags = []) := by
  have hn : n.tags = normalizeTags input := by
    simp only [create_note, Except.ok.injEq, Prod.mk.injEq] at h
    rw [← h.2]
  refine ⟨?_, ?_, ?_⟩
  · intro l hl
    rw [hn, hl]
    show joinComma ((l.filterMap id).map strip) = _
    rw [filterMapStripComm l]
  · intro ts hs
    rw [hn, hs]
    rfl
  · intro ha
    rw [hn, ha]
    rfl

/-- C2 witness: creating a note with tags a, space-b-space, null, a
stores the string a,b,a. -/
theorem c2_witness :
    tagListNote.tags =
      joinComma
        (([some "a".data, some " b ".data, none, some "a".data].map
          (fun o => o.map strip)).filterMap id) ∧
    tagListNote.tags = "a,b,a".data :=
  ⟨(c2_create_tag_normalization 0 { notes := [], nextId := 0 } "t".data "c".data
      tagListReq.tags { notes := [tagListNote], nextId := 1 } tagListNote rfl).1
      [some "a".data, some " b ".data, none, some "a".data] rfl,
   by decide⟩

theorem stripFilterComm (l : List Str) :
    (l.filter (fun t => !t.isEmpty && !(strip t).isEmpty)).map strip =
      (l.map strip).filter (fun t => !t.isEmpty) := by
  rw [List.filter_map]
  congr 1
  apply List.filter_congr
  intro x _
  cases hx : x.isEmpty with
  | true =>
    have : x = [] := List.isEmpty_iff.mp hx
    subst this
    rfl
  | false => simp [hx, Function.comp]

theorem stripFilterComm2 (l : List Str) :
    (l.filter (fun t => !(strip t).isEmpty)).map strip =
      (l.map strip).filter (fun t => !t.isEmpty) := by
  rw [List.filter_map]
  congr 1

theorem collectRequested_eq_spec_list (tagParams : List Str) (tagsParam : Option Str) :
    collectRequested tagParams tagsParam =
      ((tagParams ++
        (match tagsParam with
         | none => []
         | some s => splitComma s)).map strip).filter (fun t => !t.isEmpty) := by
  unfold collectRequested
  rw [List.map_append, List.filter_append]
  congr 1
  · exact stripFilterComm tagParams
  · cases tagsParam with
    | none => rfl
    | some s =>
      cases hs : s.isEmpty with
      | true =>
        have : s = [] := List.isEmpty_iff.mp hs
        subst this
        rfl
      | false =>
        simp only [hs, Bool.false_eq_true, if_false]
        exact stripFilterComm2 (splitComma s)

/-- C3: the effective requested-tag list equals the pipeline the
specification describes (concatenate both sources, trim each, drop
empties, dedupe case-insensitively keeping the first casing), and an
empty effective list short-circuits the filter to an empty result. -/
theorem c3_requested_tag_pipeline (tagParams : List Str) (tagsParam : Option Str) :
    dedupeCI (collectRequested tagParams tagsParam) =
      specRequestedTags tagParams tagsParam ∧
    (dedupeCI (collectRequested tagParams tagsParam) = [] →
      ∀ s, filter_notes_by_tags tagParams tagsParam s = []) := by
  constructor
  · unfold specRequestedTags
    rw [collectRequested_eq_spec_list]
  · intro he s
    unfold filter_notes_by_tags
    rw [he]
    rfl

/-- C3 witness: the case-variant duplicate pair Art, art collapses to
the single requested tag Art keeping the first casing; an empty request
returns the empty result. -/
theorem c3_witness :
    dedupeCI (collectRequested ["Art".data, "art".data] none) =
      specRequestedTags ["Art".data, "art".data] none ∧
    dedupeCI (collectRequested ["Art".data, "art".data] none) = ["Art".data] ∧
    filter_notes_by_tags [] none sampleStore = [] :=
  ⟨(c3_requested_tag_pipeline ["Art".data, "art".data] none).1,
   by decide,
   (c3_requested_tag_pipeline [] none).2 (by decide) sampleStore⟩

/-- C5 counterexample: an update that resubmits the stored title (the
only field present equals the existing value) succeeds, yet updated_at
stays 0 instead of being refreshed to the current time 5, because no
column value changes and the ORM emits no UPDATE statement. -/
theorem c5_counterexample :
    update_note 5 1 (some { title := some "A".data, content := none, tags := .absent })
      sampleStoreA = .ok (sampleStoreA, sampleNoteA) ∧
    sampleNoteA.updated_at = 0 ∧ (0 : Nat) ≠ 5 :=
  ⟨rfl, rfl, by decide⟩

/-- C5 (amended): on an existing note with a non-empty body, present
fields overwrite, absent fields keep their prior value, created_at is
preserved, other notes are untouched, and updated_at is refreshed to
the current time exactly when some submitted value differs from the
stored one; when every assigned value equals the stored one the update
still succeeds but updated_at keeps its prior value. -/
theorem c5_update_frame (now id : Nat) (req : UpdateReq) (s : Store) (n : Note)
    (hfind : s.notes.find? (fun m => m.id == id) = some n) :
    ∃ st, update_note now id (some req) s = .ok (st, applyUpdate now req n) ∧
      (applyUpdate now req n).title = req.title.getD n.title ∧
      (applyUpdate now req n).content = req.content.getD n.content ∧
      (applyUpdate now req n).tags = newTagsOf req.tags n.tags ∧
      (req.tags = .absent → (applyUpdate now req n).tags = n.tags) ∧
      (req.tags ≠ .absent → (applyUpdate now req n).tags = normalizeTags req.tags) ∧
      (applyUpdate now req n).created_at = n.created_at ∧
      (¬ updateChanged req n → (applyUpdate now req n).updated_at = n.updated_at) ∧
      (updateChanged req n → (applyUpdate now req n).updated_at = now) ∧
      st.notes = s.notes.map (fun m => if m.id == id then applyUpdate now req n else m) := by
  refine ⟨{ s with notes := s.notes.map (fun m => if m.id == id then applyUpdate now req n else m) },
    ?_, rfl, rfl, rfl, ?_, ?_, rfl, ?_, ?_, rfl⟩
  · simp [update_note, hfind]
  · intro ha
    show newTagsOf req.tags n.tags = n.tags
    rw [ha]
    rfl
  · intro ha
    show newTagsOf req.tags n.tags = normalizeTags req.tags
    cases htg : req.tags with
    | absent => exact absurd htg ha
    | nullv => rfl
    | str ts => rfl
    | list l => rfl
  · intro hsame
    show (if updateChanged req n then now else n.updated_at) = n.updated_at
    exact if_neg hsame
  · intro hch
    show (if updateChanged req n then now else n.updated_at) = now
    exact if_pos hch

/-- C5 witness: updating the sample note with a body containing only a
new title overwrites the title, keeps content and tags, and refreshes
updated_at to the current time 7. -/
theorem c5_witness :
    ∃ st, update_note 7 1 (some updateReqX) sampleStoreA
        = .ok (st, applyUpdate 7 updateReqX sampleNoteA) ∧
      (applyUpdate 7 updateReqX sampleNoteA).title
        = updateReqX.title.getD sampleNoteA.title ∧
      (applyUpdate 7 updateReqX sampleNoteA).content
        = updateReqX.content.getD sampleNoteA.content ∧
      (applyUpdate 7 updateReqX sampleNoteA).tags
        = newTagsOf updateReqX.tags sampleNoteA.tags ∧
      (updateReqX.tags = .absent →
        (applyUpdate 7 updateReqX sampleNoteA).tags = sampleNoteA.tags) ∧
      (updateReqX.tags ≠ .absent →
        (applyUpdate 7 updateReqX sampleNoteA).tags = normalizeTags updateReqX.tags) ∧
      (applyUpdate 7 updateReqX sampleNoteA).created_at = sampleNoteA.created_at ∧
      (¬ updateChanged updateReqX sampleNoteA →
        (applyUpdate 7 updateReqX sampleNoteA).updated_at = sampleNoteA.updated_at) ∧
      (updateChanged updateReqX sampleNoteA →
        (applyUpdate 7 updateReqX sampleNoteA).updated_at = 7) ∧
      st.notes = sampleStoreA.notes.map
        (fun m => if m.id == 1 then applyUpdate 7 updateReqX sampleNoteA else m) :=
  c5_update_frame 7 1 updateReqX sampleStoreA sampleNoteA rfl

/-- C6: a created note has created_at = updated_at = the creation time,
and the invariant created_at less-or-equal updated_at is preserved by
create, update (assuming the request clock is not behind any stored
updated_at) and delete. -/
theorem c6_timestamp_invariant :
    (∀ now req s st n, create_note now req s = .ok (st, n) →
      n.created_at = now ∧ n.updated_at = now) ∧
    (∀ now req s st n, StoreInv s → create_note now req s = .ok (st, n) →
      StoreInv st) ∧
    (∀ now id req? s st n2, StoreInv s → (∀ m ∈ s.notes, m.updated_at ≤ now) →
      update_note now id req? s = .ok (st, n2) → StoreInv st) ∧
    (∀ id s st, StoreInv s → delete_note id s = .ok st → StoreInv st) := by
  refine ⟨?_, ?_, ?_, ?_⟩
  · rintro now ⟨t?, c?, tg⟩ s st n h
    cases t? <;> cases c? <;> simp [create_note] at h
    obtain ⟨-, hn⟩ := h
    rw [← hn]
    exact ⟨rfl, rfl⟩
  · rintro now ⟨t?, c?, tg⟩ s st n hinv h
    cases t? <;> cases c? <;> simp [create_note] at h
    obtain ⟨hst, -⟩ := h
    rw [← hst]
    intro m hm
    rcases List.mem_append.mp hm with hm1 | hm2
    · exact hinv m hm1
    · rw [List.mem_singleton.mp hm2]
  · intro now id req? s st n2 hinv hclock h
    cases hf : s.notes.find? (fun m => m.id == id) with
    | none => simp [update_note, hf] at h
    | some n =>
      cases req? with
      | none => simp [update_note, hf] at h
      | some req =>
        simp only [update_note, hf, Except.ok.injEq, Prod.mk.injEq] at h
        obtain ⟨hst, -⟩ := h
        rw [← hst]
        intro m hm
        obtain ⟨m0, hm0, hfm⟩ := List.mem_map.mp hm
        have hn_mem : n ∈ s.notes := List.mem_of_find?_eq_some hf
        by_cases hid : (m0.id == id) = true
        · rw [if_pos hid] at hfm
          rw [← hfm]
          show (applyUpdate now req n).created_at ≤ (applyUpdate now req n).updated_at
          show n.created_at ≤ (if updateChanged req n then now else n.updated_at)
          by_cases hch : updateChanged req n
          · rw [if_pos hch]
            exact Nat.le_trans (hinv n hn_mem) (hclock n hn_mem)
          · rw [if_neg hch]
            exact hinv n hn_mem
        · rw [if_neg hid] at hfm
          rw [← hfm]
          exact hinv m0 hm0
  · intro id s st hinv h
    cases hf : s.notes.find? (fun m => m.id == id) with
    | none => simp [delete_note, hf] at h
    | some n =>
      simp only [delete_note, hf, Except.ok.injEq] at h
      rw [← h]
      intro m hm
      exact hinv m (List.mem_filter.mp hm).1

/-- C6 witness: concrete create, update and delete runs preserving the
invariant, with equal timestamps at creation time. -/
theorem c6_witness :
    (tagListNote.created_at = 0 ∧ tagListNote.updated_at = 0) ∧
    StoreInv { notes := [tagListNote], nextId := 1 } ∧
    StoreInv { notes := [applyUpdate 7 updateReqX sampleNoteA], nextId := 2 } ∧
    StoreInv { notes := [], nextId := 2 } := by
  refine ⟨?_, ?_, ?_, ?_⟩
  · exact c6_timestamp_invariant.1 0 tagListReq { notes := [], nextId := 0 }
      { notes := [tagListNote], nextId := 1 } tagListNote rfl
  · exact c6_timestamp_invariant.2.1 0 tagListReq { notes := [], nextId := 0 }
      { notes := [tagListNote], nextId := 1 } tagListNote (by intro m hm; simp at hm) rfl
  · exact c6_timestamp_invariant.2.2.1 7 1 (some updateReqX) sampleStoreA
      { notes := [applyUpdate 7 updateReqX sampleNoteA], nextId := 2 }
      (applyUpdate 7 updateReqX sampleNoteA)
      (by intro m hm; rw [List.mem_singleton.mp hm]; decide)
      (by intro m hm; rw [List.mem_singleton.mp hm]; decide) rfl
  · exact c6_timestamp_invariant.2.2.2 1 sampleStoreA { notes := [], nextId := 2 }
      (by intro m hm; rw [List.mem_singleton.mp hm]; decide) rfl

/-- C7: the login verification chain tries exactly one strategy, in
fixed priority order: a check_password capability first, else the
password_hash field through the hash verifier, else raw equality with
the password field; with none of the three, login fails with a
configuration error mapped to status 500.  The last two conjuncts state
that lower-priority capabilities are never consulted once a
higher-priority one is present. -/
theorem c7_verifier_priority (vh : Str → Str → Bool) (u : User) (pw : Str) :
    (∀ f, u.check_password = some f → verifyPassword vh u pw = .ok (f pw)) ∧
    (u.check_password = none → ∀ h, u.password_hash = some h →
      verifyPassword vh u pw = .ok (vh h pw)) ∧
    (u.check_password = none → u.password_hash = none → ∀ p, u.password = some p →
      verifyPassword vh u pw = .ok (p == pw)) ∧
    (u.check_password = none → u.password_hash = none → u.password = none →
      verifyPassword vh u pw = .error ()) ∧
    (∀ users un, un.isEmpty = false → pw.isEmpty = false →
      findUser users un = some u → verifyPassword vh u pw = .error () →
      login vh users (some un) (some pw) = .configError ∧
      loginStatus .configError = 500) ∧
    (∀ u2 : User, u2.check_password = u.check_password → u.check_password.isSome = true →
      verifyPassword vh u2 pw = verifyPassword vh u pw) ∧
    (∀ u2 : User, u.check_password = none → u2.check_password = none →
      u2.password_hash = u.password_hash → u.password_hash.isSome = true →
      verifyPassword vh u2 pw = verifyPassword vh u pw) := by
  refine ⟨?_, ?_, ?_, ?_, ?_, ?_, ?_⟩
  · intro f hf
    simp [verifyPassword, hf]
  · intro hc h hh
    simp [verifyPassword, hc, hh]
  · intro hc hh p hp
    simp [verifyPassword, hc, hh, hp]
  · intro hc hh hp
    simp [verifyPassword, hc, hh, hp]
  · intro users un hun hpw hfu hv
    refine ⟨?_, rfl⟩
    simp [login, hun, hpw, hfu, hv]
  · intro u2 he hs
    obtain ⟨f, hf⟩ := Option.isSome_iff_exists.mp hs
    have hf2 : u2.check_password = some f := he.trans hf
    simp [verifyPassword, hf, hf2]
  · intro u2 hc1 hc2 he hs
    obtain ⟨h, hh⟩ := Option.isSome_iff_exists.mp hs
    have hh2 : u2.password_hash = some h := he.trans hh
    simp [verifyPassword, hc1, hc2, hh, hh2]

/-- C7 witness: a user entity exposing none of the three capabilities
makes login fail with the configuration error and status 500. -/
theorem c7_witness :
    verifyPassword constFalseHash noVerifierUser "pw".data = .error () ∧
    login constFalseHash [noVerifierUser] (some "alice".data) (some "pw".data)
      = .configError ∧
    loginStatus .configError = 500 := by
  have hv : verifyPassword constFalseHash noVerifierUser "pw".data = .error () :=
    (c7_verifier_priority constFalseHash noVerifierUser "pw".data).2.2.2.1 rfl rfl rfl
  have hl := (c7_verifier_priority constFalseHash noVerifierUser "pw".data).2.2.2.2.1
    [noVerifierUser] "alice".data rfl rfl rfl hv
  exact ⟨hv, hl.1, hl.2⟩

/-- C8: a login naming an unknown user and a login naming an existing
user with a failing password both produce the authentication error,
status 401, with identical error bodies, so the response does not
reveal which case occurred. -/
theorem c8_login_indistinguishable (vh : Str → Str → Bool) (users : List User)
    (un1 pw1 un2 pw2 : Str) (u : User)
    (h1 : un1.isEmpty = false) (h2 : pw1.isEmpty = false)
    (h3 : un2.isEmpty = false) (h4 : pw2.isEmpty = false)
    (hnf : findUser users un1 = none)
    (hf : findUser users un2 = some u)
    (hbad : verifyPassword vh u pw2 = .ok false) :
    login vh users (some un1) (some pw1) = .authError ∧
    login vh users (some un2) (some pw2) = .authError ∧
    loginStatus (login vh users (some un1) (some pw1)) = 401 ∧
    loginErrorBody (login vh users (some un1) (some pw1)) =
      loginErrorBody (login vh users (some un2) (some pw2)) := by
  have e1 : login vh users (some un1) (some pw1) = .authError := by
    simp [login, h1, h2, hnf]
  have e2 : login vh users (some un2) (some pw2) = .authError := by
    simp [login, h3, h4, hf, hbad]
  exact ⟨e1, e2, by rw [e1]; rfl, by rw [e1, e2]⟩

/-- C8 witness: on a store holding one user alice with stored plaintext
password secret, the unknown name bob and the wrong password for alice
give the same 401 response. -/
theorem c8_witness :
    login constFalseHash [plainPasswordUser] (some "bob".data) (some "pw".data)
      = .authError ∧
    login constFalseHash [plainPasswordUser] (some "alice".data) (some "wrong".data)
      = .authError ∧
    loginStatus (login constFalseHash [plainPasswordUser] (some "bob".data)
      (some "pw".data)) = 401 ∧
    loginErrorBody (login constFalseHash [plainPasswordUser] (some "bob".data)
        (some "pw".data)) =
      loginErrorBody (login constFalseHash [plainPasswordUser] (some "alice".data)
        (some "wrong".data)) :=
  c8_login_indistinguishable constFalseHash [plainPasswordUser]
    "bob".data "pw".data "alice".data "wrong".data plainPasswordUser
    rfl rfl rfl rfl rfl rfl rfl

/-- C9: a register request whose username matches a stored user, or
whose submitted email matches a stored email (when the email column
exists), is rejected with 400 and leaves the user table unchanged; when
the email column is structurally unavailable the uniqueness lookup
degrades to username-only. -/
theorem c9_register_uniqueness (hashFn : Str → Str) (hasEmailAttr : Bool)
    (users : List User) (un pw : Str) (email? : Option Str)
    (hu : un.isEmpty = false) (hp : pw.isEmpty = false) :
    (∀ u ∈ users, u.username = un →
      register hashFn hasEmailAttr users (some un) email? (some pw)
        = (.duplicateError, users) ∧
      registerStatus .duplicateError = 400) ∧
    (hasEmailAttr = true → ∀ u ∈ users, ∀ e, email? = some e → u.email = some e →
      register hashFn hasEmailAttr users (some un) email? (some pw)
        = (.duplicateError, users)) ∧
    (hasEmailAttr = false →
      duplicateCheck hasEmailAttr users un email?
        = users.find? (fun u => u.username == un)) := by
  have hfind : ∀ p : User → Bool, (∃ u ∈ users, p u = true) →
      ∃ v, users.find? p = some v := by
    intro p hex
    obtain ⟨u, hu1, hu2⟩ := hex
    cases hv : users.find? p with
    | some v => exact ⟨v, rfl⟩
    | none => exact absurd hu2 (List.find?_eq_none.mp hv u hu1)
  refine ⟨?_, ?_, ?_⟩
  · intro u hmem huname
    obtain ⟨v, hv⟩ : ∃ v, duplicateCheck hasEmailAttr users un email? = some v := by
      cases hasEmailAttr with
      | true =>
        simp only [duplicateCheck, if_true]
        exact hfind _ ⟨u, hmem, by simp [huname]⟩
      | false =>
        simp only [duplicateCheck, Bool.false_eq_true, if_false]
        exact hfind _ ⟨u, hmem, by simp [huname]⟩
    exact ⟨by simp [register, hu, hp, hv], rfl⟩
  · intro hattr u hmem e hee hue
    subst hattr
    obtain ⟨v, hv⟩ : ∃ v, duplicateCheck true users un email? = some v := by
      simp only [duplicateCheck, if_true]
      exact hfind _ ⟨u, hmem, by simp [hee, hue]⟩
    simp [register, hu, hp, hv]
  · intro hattr
    subst hattr
    simp [duplicateCheck]

/-- C9 witness: registering the already-stored name alice is rejected
with 400 and the user table is unchanged; without an email column the
lookup is username-only. -/
theorem c9_witness :
    (register idHashFn true [plainPasswordUser] (some "alice".data)
      (some "b@x.com".data) (some "pw".data) = (.duplicateError, [plainPasswordUser]) ∧
      registerStatus .duplicateError = 400) ∧
    duplicateCheck false [plainPasswordUser] "zoe".data (some "b@x.com".data)
      = [plainPasswordUser].find? (fun u => u.username == "zoe".data) := by
  refine ⟨?_, ?_⟩
  · exact (c9_register_uniqueness idHashFn true [plainPasswordUser] "alice".data
      "pw".data (some "b@x.com".data) rfl rfl).1 plainPasswordUser
      (List.mem_singleton_self plainPasswordUser) rfl
  · exact (c9_register_uniqueness idHashFn false [plainPasswordUser] "zoe".data
      "pw".data (some "b@x.com".data) rfl rfl).2.2 rfl

/-- C10 counterexample: a create request whose title is the empty
string is accepted (the route only tests key presence) and stores an
empty title, contradicting the claim that every accepted note has a
non-empty title. -/
theorem c10_counterexample :
    create_note 0 { title := some [], content := some "c".data, tags := .absent }
      { notes := [], nextId := 0 }
      = .ok ({ notes := [emptyTitleNote], nextId := 1 }, emptyTitleNote) ∧
    emptyTitleNote.title = [] :=
  ⟨rfl, rfl⟩

/-- C10 (amended): create accepts exactly the requests in which both
the title and the content key are present, and stores the submitted
strings verbatim, which may be empty; a request missing either key is
rejected with the validation error. -/
theorem c10_create_presence (now : Nat) (req : CreateReq) (s : Store) :
    (∀ t c, req.title = some t → req.content = some c →
      ∃ st n, create_note now req s = .ok (st, n) ∧ n.title = t ∧ n.content = c) ∧
    ((req.title = none ∨ req.content = none) →
      create_note now req s = .error .validationError) := by
  obtain ⟨t?, c?, tg⟩ := req
  constructor
  · intro t c ht hc
    simp only at ht hc
    subst ht
    subst hc
    exact ⟨_, _, rfl, rfl, rfl⟩
  · rintro (ht | hc)
    · simp only at ht
      subst ht
      cases c? <;> rfl
    · simp only at hc
      subst hc
      cases t? <;> rfl

/-- C10 witness: a request carrying both keys is accepted and stored
verbatim. -/
theorem c10_witness :
    ∃ st n, create_note 0 tagListReq { notes := [], nextId := 0 } = .ok (st, n) ∧
      n.title = "t".data ∧ n.content = "c".data :=
  (c10_create_presence 0 tagListReq { notes := [], nextId := 0 }).1
    "t".data "c".data rfl rfl

end NoteApp
